import Mathlib

/-!
Verification of the DistributedQ queue engine (pkg/queue/client.go, cmd/server/main.go,
cmd/worker/main.go) against its natural-language specification.

Shallow embedding conventions:
  - Redis lists (queue:high, queue:default, queue:low, processing_queue,
    completed_queue, dead_letter_queue) are Lean lists of the raw encoded strings,
    head = left end, append on the right models RPUSH.
  - The sorted set delayed_queue is a list of (score, member) pairs kept in
    score order; zadd inserts in order, mirroring ZADD on a ZSET.
  - JSON serialization of a task (json.Marshal) is an abstract parameter
    encode : Task -> String; the engine only ever compares encoded forms.
  - Timestamps are Int nanoseconds (or Int seconds for the rate limiter,
    matching time.Now().Unix()).
  - Machine arithmetic of the retry path is modelled bit-exactly: wrap64 is
    two's-complement int64 wrap-around, goShl1 is the Go shift 1 << k on an
    int64 operand, and roundF64 is the value rounding performed by the
    float64(int64) conversion that produces the delay-set score.
-/

namespace DistributedQ

/-- Task struct of package tasks (src/pkg/logger/logger.go lines 44 to 66):
ID string, Type string, Payload interface (opaque to the engine, held as its
raw form), CreatedAt time.Time, RetryCount int, Priority int. The two Go int
fields are signed 64-bit machine integers, modelled as Int; wherever the code
performs int64 arithmetic on them the explicit wrap64 is applied. -/
structure Task where
  id : String
  taskType : String
  payload : String
  createdAt : Int
  retryCount : Int
  priority : Int
deriving Repr, DecidableEq

/-- Priority constant PriorityLow = 0 (src/pkg/logger/logger.go line 69). -/
def PriorityLow : Int := 0

/-- Priority constant PriorityDefault = 1 (src/pkg/logger/logger.go line 70). -/
def PriorityDefault : Int := 1

/-- Priority constant PriorityHigh = 2 (src/pkg/logger/logger.go line 71). -/
def PriorityHigh : Int := 2

/-- Broker state: the stable key layout of section 6. Lists hold raw encoded tasks;
delayedQueue is the sorted set as its score-ascending sequence of
(score in nanoseconds, member) pairs. -/
structure BrokerState where
  queueHigh : List String
  queueDefault : List String
  queueLow : List String
  processingQueue : List String
  completedQueue : List String
  deadLetterQueue : List String
  delayedQueue : List (Int × String)
deriving Repr, DecidableEq

/-- The empty broker state: every key absent or empty. -/
def emptyState : BrokerState :=
  { queueHigh := [], queueDefault := [], queueLow := [], processingQueue := [],
    completedQueue := [], deadLetterQueue := [], delayedQueue := [] }

/-- Queue selection of Client.Enqueue (client.go lines 65 to 71): a switch on
task.Priority, High to queue:high, Low to queue:low, anything else to the
default queue. -/
def enqueueQueueName (p : Int) : String :=
  if p = PriorityHigh then "queue:high"
  else if p = PriorityLow then "queue:low"
  else "queue:default"

/-- Client.Enqueue (client.go lines 59 to 74): serialize the task and RPUSH the
encoded form onto the queue selected by its priority. -/
def enqueue (encode : Task → String) (t : Task) (s : BrokerState) : BrokerState :=
  if t.priority = PriorityHigh then { s with queueHigh := s.queueHigh ++ [encode t] }
  else if t.priority = PriorityLow then { s with queueLow := s.queueLow ++ [encode t] }
  else { s with queueDefault := s.queueDefault ++ [encode t] }

/-- Client.Dequeue (client.go lines 84 to 108): BLMove LEFT RIGHT from queue:high,
then queue:default, then queue:low, into processing_queue; none models the
redis.Nil empty signal when all three queues are empty. The returned string is
the raw identity token (the moved list element). -/
def dequeue (s : BrokerState) : Option (String × BrokerState) :=
  match s.queueHigh with
  | r :: rest =>
    some (r, { s with queueHigh := rest, processingQueue := s.processingQueue ++ [r] })
  | [] =>
    match s.queueDefault with
    | r :: rest =>
      some (r, { s with queueDefault := rest, processingQueue := s.processingQueue ++ [r] })
    | [] =>
      match s.queueLow with
      | r :: rest =>
        some (r, { s with queueLow := rest, processingQueue := s.processingQueue ++ [r] })
      | [] => none

/-- Client.Ack (client.go lines 117 to 120): LREM processing_queue 1 rawTask,
removing the first occurrence of the identity token. -/
def ack (rawTask : String) (s : BrokerState) : BrokerState :=
  { s with processingQueue := s.processingQueue.erase rawTask }

/-- LTRIM key -100 -1 keeps the trailing n entries of a list: drop everything
before index length - n (a list shorter than n is kept whole). -/
def ltrimLast (n : Nat) (l : List String) : List String :=
  l.drop (l.length - n)

/-- Client.Complete (client.go lines 124 to 134): one pipeline that LREMs the
first occurrence of the identity token from processing_queue, RPUSHes it onto
completed_queue, and LTRIMs completed_queue to its last 100 entries. -/
def complete (rawTask : String) (s : BrokerState) : BrokerState :=
  { s with processingQueue := s.processingQueue.erase rawTask,
           completedQueue := ltrimLast 100 (s.completedQueue ++ [rawTask]) }

/-- Two's-complement wrap of an integer into the signed 64-bit range: the
result of any Go int64 arithmetic step. -/
def wrap64 (x : Int) : Int :=
  (x + 2 ^ 63) % 2 ^ 64 - 2 ^ 63

/-- The Go expression 1 << k on an int64 operand: a shift by 63 lands on the
minimum int64, shifts of 64 or more give 0. A negative shift count panics at
run time in Go; the model returns 0 there and no theorem relies on that case. -/
def goShl1 (k : Int) : Int :=
  if k < 0 ∨ 64 ≤ k then 0 else wrap64 (2 ^ k.toNat)

/-- Backoff of Client.Retry (client.go line 156):
time.Duration(1 << task.RetryCount) * 100 * time.Millisecond, evaluated step by
step in wrapping int64 arithmetic, in nanoseconds. The retry count argument is
the already incremented one; the int64 product overflows once it reaches 37. -/
def backoffNs (retryCount : Int) : Int :=
  wrap64 (wrap64 (goShl1 retryCount * 100) * 1000000)

/-- The increment step of Client.Retry (client.go line 153): task.RetryCount++
on a Go int, which wraps at the int64 maximum. -/
def retryTask (t : Task) : Task :=
  { t with retryCount := wrap64 (t.retryCount + 1) }

/-- Number of binary digits, by structural recursion on a fuel argument so
that it evaluates inside the kernel; 128 units of fuel cover far more than the
int64 magnitudes this development feeds it. -/
def bitLenAux : Nat → Nat → Nat
  | 0, _ => 0
  | fuel + 1, n => if n = 0 then 0 else bitLenAux fuel (n / 2) + 1

/-- Number of binary digits of a natural number. -/
def bitLen (n : Nat) : Nat :=
  bitLenAux 128 n

/-- Round a natural number to the nearest IEEE 754 double (53-bit significand,
round to nearest, ties to even), returned as its exact integer value. Numbers
below 2 to the 53 are exact; above, the low bits are rounded away. -/
def roundF64Nat (n : Nat) : Nat :=
  if n < 2 ^ 53 then n
  else
    let e := bitLen n - 53
    let q := n / 2 ^ e
    let r := n % 2 ^ e
    let half := 2 ^ (e - 1)
    let q2 := if half < r ∨ (r = half ∧ q % 2 = 1) then q + 1 else q
    q2 * 2 ^ e

/-- Value stored by the float64(x) conversion of an int64 x (client.go
line 167): conversion to double rounds to the nearest representable value,
symmetrically in sign. -/
def roundF64 (x : Int) : Int :=
  if 0 ≤ x then (roundF64Nat x.toNat : Int) else -(roundF64Nat (-x).toNat : Int)

/-- ZADD on the score-ordered representation of a sorted set: insert the pair at
the first position whose score is not smaller. -/
def zadd (score : Int) (member : String) : List (Int × String) → List (Int × String)
  | [] => [(score, member)]
  | e :: rest =>
    if score < e.1 then (score, member) :: e :: rest
    else e :: zadd score member rest

/-- Client.Retry (client.go lines 151 to 175): increment task.RetryCount,
compute backoff in wrapping int64 nanoseconds, processAt = now + backoff (an
int64 UnixNano value), re-serialize the task, then in one pipeline ZADD the
fresh encoded task to delayed_queue with score float64(processAt.UnixNano())
and LREM the original identity token from processing_queue. -/
def retry (encode : Task → String) (t : Task) (rawTask : String) (now : Int)
    (s : BrokerState) : BrokerState :=
  let t2 := retryTask t
  let backoff := backoffNs t2.retryCount
  let processAt := wrap64 (now + backoff)
  { s with delayedQueue := zadd (roundF64 processAt) (encode t2) s.delayedQueue,
           processingQueue := s.processingQueue.erase rawTask }

/-- The delay-set score Client.Retry stores for a task retried at the given
call time: the float64 image of the wrapped int64 nanosecond sum. -/
def retryScore (t : Task) (now : Int) : Int :=
  roundF64 (wrap64 (now + backoffNs (retryTask t).retryCount))

/-- Client.Fail (client.go lines 192 to 205): one pipeline that RPUSHes the
serialized task onto dead_letter_queue and LREMs the identity token from
processing_queue. -/
def fail (encode : Task → String) (t : Task) (rawTask : String) (s : BrokerState) :
    BrokerState :=
  { s with deadLetterQueue := s.deadLetterQueue ++ [encode t],
           processingQueue := s.processingQueue.erase rawTask }

/-- One tick of the scheduler Lua script (client.go lines 234 to 256):
ZRANGEBYSCORE delayed_queue -inf now collects the due members in ascending score
order, ZREMRANGEBYSCORE removes exactly those, each collected member is RPUSHed
onto queue:default (the script never consults the priority stored inside the
member), and the script returns the number of promoted entries. -/
def schedulerTick (now : Int) (s : BrokerState) : BrokerState × Nat :=
  let due := s.delayedQueue.filter (fun e => decide (e.1 ≤ now))
  let rest := s.delayedQueue.filter (fun e => decide (now < e.1))
  ({ s with delayedQueue := rest,
            queueDefault := s.queueDefault ++ due.map Prod.snd }, due.length)

/-- Persistent state of one rate-limit key (client.go lines 380 to 399): a hash
with fields tokens and last_refill. With integer inputs (rate, burst, Unix
seconds, requested = 1) every value the Lua script stores is an exact integer,
so tokens is modelled as Int. -/
structure BucketState where
  tokens : Int
  lastRefill : Int
deriving Repr, DecidableEq

/-- Token bucket Lua script of Client.Allow (client.go lines 373 to 400).
The state argument is none when the key has never been observed (HGET returns
nil). Returns the allowed flag together with the persisted state; a denial is
the normal boolean false, not an error. -/
def allowScript (rate burst now requested : Int) (st : Option BucketState) :
    Bool × BucketState :=
  let tokens := match st with | none => burst | some b => b.tokens
  let lastRefill := match st with | none => now | some b => b.lastRefill
  let delta := max 0 (now - lastRefill)
  let newTokens := min burst (tokens + delta * rate)
  if requested ≤ newTokens then
    (true, { tokens := newTokens - requested, lastRefill := now })
  else
    (false, { tokens := newTokens, lastRefill := now })

/-- Client.Allow (client.go lines 366 to 415): runs the token bucket script with
requested = 1 and now = time.Now().Unix() in whole seconds, and interprets the
returned integer as a boolean. -/
def clientAllow (limit burst now : Int) (st : Option BucketState) :
    Bool × BucketState :=
  allowScript limit burst now 1 st

/-- A sequence of Allow calls on one key at the given clock seconds, starting
from the given (possibly absent) bucket state; returns the list of outcomes and
the final persisted state. -/
def allowRun (limit burst : Int) (times : List Int) (st : Option BucketState) :
    List Bool × Option BucketState :=
  match times with
  | [] => ([], st)
  | t :: rest =>
    let r := clientAllow limit burst t st
    let rr := allowRun limit burst rest (some r.2)
    (r.1 :: rr.1, rr.2)

/-- Outcome classifier of the worker loop (cmd/worker/main.go lines 180 to 189):
on handler failure the worker retries while task.RetryCount < 3 and otherwise
moves the task to the dead letter queue. -/
inductive FailureAction where
  | retryAction
  | failAction
deriving Repr, DecidableEq

/-- The branch condition of the worker loop on handler failure
(cmd/worker/main.go line 183): if task.RetryCount < 3 then Retry else Fail. -/
def workerFailureAction (t : Task) : FailureAction :=
  if t.retryCount < 3 then .retryAction else .failAction

/-- State effect of the worker loop on handler failure (cmd/worker/main.go
lines 180 to 189): Client.Retry below the retry limit, Client.Fail at or above
it. -/
def handleFailure (encode : Task → String) (t : Task) (rawTask : String)
    (now : Int) (s : BrokerState) : BrokerState :=
  if t.retryCount < 3 then retry encode t rawTask now s
  else fail encode t rawTask s

/-- One operation of the enqueue and dequeue interleavings of property P1. -/
inductive QueueOp where
  | enqueueOp (t : Task)
  | dequeueOp
deriving Repr

/-- Apply one operation to the broker state; a dequeue of an entirely empty
system (redis.Nil) leaves the state unchanged. -/
def applyOp (encode : Task → String) (s : BrokerState) : QueueOp → BrokerState
  | .enqueueOp t => enqueue encode t s
  | .dequeueOp =>
    match dequeue s with
    | some r => r.2
    | none => s

/-- Run a sequence of operations from a starting state. -/
def runOps (encode : Task → String) (s : BrokerState) (ops : List QueueOp) :
    BrokerState :=
  ops.foldl (applyOp encode) s

/-- The encoded forms of the tasks enqueued by a sequence of operations. -/
def enqueuedData (encode : Task → String) (ops : List QueueOp) : List String :=
  ops.filterMap (fun op => match op with
    | .enqueueOp t => some (encode t)
    | .dequeueOp => none)

/-- Number of occurrences of an encoded task across the three ready queues, the
in-flight list and the completed list. -/
def occCount (d : String) (s : BrokerState) : Nat :=
  s.queueHigh.count d + s.queueDefault.count d + s.queueLow.count d +
    s.processingQueue.count d + s.completedQueue.count d

/-- Number of those five lists that contain the encoded task at all. -/
def listsContaining (d : String) (s : BrokerState) : Nat :=
  (if d ∈ s.queueHigh then 1 else 0) + (if d ∈ s.queueDefault then 1 else 0) +
    (if d ∈ s.queueLow then 1 else 0) + (if d ∈ s.processingQueue then 1 else 0) +
    (if d ∈ s.completedQueue then 1 else 0)

/-- Decoded request body of POST /enqueue (cmd/server/main.go lines 102 to 106):
type, payload, and an optional priority field. The Go struct field Priority is
a plain int, so an absent JSON field leaves the zero value 0; presence is
modelled with an Option resolved by getD 0. -/
structure EnqueueBody where
  bodyType : String
  payload : String
  priorityField : Option Int
deriving Repr, DecidableEq

/-- An HTTP request as the server middlewares observe it: the method, the value
of the X-API-Key header (Header.Get returns the empty string when the header is
absent), and the result of json.Decode on the body for the enqueue endpoint
(none models a decode error, in particular an empty body). -/
structure HttpRequest where
  method : String
  apiKey : String
  body : Option EnqueueBody
deriving Repr, DecidableEq

/-- Handlers map a request and a broker state to a status code and a new broker
state. -/
abbrev HandlerFunc := HttpRequest → BrokerState → Nat × BrokerState

/-- authMiddleware (cmd/server/main.go lines 45 to 61): with an empty configured
key every request passes; otherwise a request whose X-API-Key header differs
from the configured key is answered 401 without invoking the handler. -/
def authMiddleware (next : HandlerFunc) (requiredKey : String) : HandlerFunc :=
  fun r s =>
    if requiredKey = "" then next r s
    else if r.apiKey ≠ requiredKey then (401, s)
    else next r s

/-- enableCORS (cmd/server/main.go lines 64 to 79): an OPTIONS preflight request
is answered 200 before anything else runs; other requests fall through. -/
def enableCORS (next : HandlerFunc) : HandlerFunc :=
  fun r s =>
    if r.method = "OPTIONS" then (200, s)
    else next r s

/-- Task built by the enqueue handler (cmd/server/main.go lines 127 to 133):
a fresh UUID, the decoded type and payload, the current time, and the decoded
priority (zero when the JSON field was absent); RetryCount starts at 0. -/
def mkEnqueueTask (freshId : String) (nowT : Int) (b : EnqueueBody) : Task :=
  { id := freshId, taskType := b.bodyType, payload := b.payload,
    createdAt := nowT, retryCount := 0, priority := b.priorityField.getD 0 }

/-- Enqueue handler body (cmd/server/main.go lines 94 to 143): 405 for a method
other than POST, 400 when the JSON body does not decode, otherwise build the
task, enqueue it and answer 200. -/
def enqueueHandler (encode : Task → String) (freshId : String) (nowT : Int) :
    HandlerFunc :=
  fun r s =>
    if r.method ≠ "POST" then (405, s)
    else
      match r.body with
      | none => (400, s)
      | some b => (200, enqueue encode (mkEnqueueTask freshId nowT b) s)

/-- The full middleware chain of the /enqueue route (cmd/server/main.go
line 94): enableCORS wrapping authMiddleware wrapping the handler. -/
def enqueueRoute (encode : Task → String) (freshId : String) (nowT : Int)
    (apiKey : String) : HandlerFunc :=
  enableCORS (authMiddleware (enqueueHandler encode freshId nowT) apiKey)

/-- ZADD always places the inserted pair somewhere in the sorted set. -/
theorem mem_zadd (score : Int) (member : String) (l : List (Int × String)) :
    (score, member) ∈ zadd score member l := by
  induction l with
  | nil => simp [zadd]
  | cons e rest ih =>
    by_cases h : score < e.1 <;> simp [zadd, h, ih]

/-- C1: strict priority dequeue. If queue:high is non-empty, Dequeue moves its
head into processing_queue and returns it; if queue:high is empty and
queue:default is non-empty, likewise from queue:default; if both are empty and
queue:low is non-empty, from queue:low; if all three are empty, Dequeue returns
the empty signal. In every success case the returned raw identity token is
appended on the right of processing_queue. -/
theorem dequeue_strict_priority (s : BrokerState) :
    (∀ r rest, s.queueHigh = r :: rest →
      dequeue s = some (r, { s with
                             queueHigh := rest,
                             processingQueue := s.processingQueue ++ [r] })) ∧
    (∀ r rest, s.queueHigh = [] → s.queueDefault = r :: rest →
      dequeue s = some (r, { s with
                             queueDefault := rest,
                             processingQueue := s.processingQueue ++ [r] })) ∧
    (∀ r rest, s.queueHigh = [] → s.queueDefault = [] → s.queueLow = r :: rest →
      dequeue s = some (r, { s with
                             queueLow := rest,
                             processingQueue := s.processingQueue ++ [r] })) ∧
    (s.queueHigh = [] → s.queueDefault = [] → s.queueLow = [] →
      dequeue s = none) := by
  refine ⟨?_, ?_, ?_, ?_⟩ <;> intros <;> simp_all [dequeue]

/-- Witness for C1 at a concrete broker state with only the default and low
queues populated: the dequeue comes from queue:default. -/
theorem dequeue_strict_priority_witness :
    dequeue { emptyState with queueDefault := ["d"], queueLow := ["l"] } =
      some ("d", { emptyState with
                   queueDefault := [],
                   queueLow := ["l"],
                   processingQueue := ["d"] }) := by
  have h := (dequeue_strict_priority
    { emptyState with queueDefault := ["d"], queueLow := ["l"] }).2.1 "d" [] rfl rfl
  simpa [emptyState] using h

/-- An integer already inside the signed 64-bit range is unchanged by the
int64 wrap. -/
theorem wrap64_of_range (x : Int) (h1 : -(2 ^ 63) ≤ x) (h2 : x < 2 ^ 63) :
    wrap64 x = x := by
  unfold wrap64
  have e1 : (2 : Int) ^ 63 = 9223372036854775808 := by norm_num
  have e2 : (2 : Int) ^ 64 = 18446744073709551616 := by norm_num
  rw [e1, e2] at *
  rw [Int.emod_eq_of_lt (by omega) (by omega)]
  omega

/-- For new retry counts up to 36 the int64 backoff computation does not
overflow and equals the exact 2 to the count times 100 ms in nanoseconds. -/
theorem backoffNs_exact (m : Int) (h1 : 1 ≤ m) (h2 : m ≤ 36) :
    backoffNs m = 2 ^ m.toNat * 100000000 := by
  have hm0 : ¬ (m < 0 ∨ 64 ≤ m) := by omega
  have hmn : m.toNat ≤ 36 := by omega
  have hp : (2 : Int) ^ m.toNat ≤ 2 ^ 36 := pow_le_pow_right₀ one_le_two hmn
  have hp0 : (0 : Int) ≤ 2 ^ m.toNat := by positivity
  have ha : (2 : Int) ^ m.toNat * 100 ≤ 2 ^ 36 * 100 :=
    mul_le_mul_of_nonneg_right hp (by norm_num)
  have hb : (2 : Int) ^ m.toNat * 100 * 1000000 ≤ 2 ^ 36 * 100 * 1000000 :=
    mul_le_mul_of_nonneg_right ha (by norm_num)
  have hd : (2 : Int) ^ 36 < 2 ^ 63 := by norm_num
  have he2 : (2 : Int) ^ 36 * 100 < 2 ^ 63 := by norm_num
  have hc : (2 : Int) ^ 36 * 100 * 1000000 < 2 ^ 63 := by norm_num
  unfold backoffNs goShl1
  rw [if_neg hm0]
  rw [wrap64_of_range (2 ^ m.toNat) (by linarith) (by linarith)]
  rw [wrap64_of_range (2 ^ m.toNat * 100) (by linarith) (by linarith)]
  rw [wrap64_of_range (2 ^ m.toNat * 100 * 1000000) (by linarith) (by linarith)]
  ring

/-- Below 2 to the 53 in magnitude the float64 conversion is exact. -/
theorem roundF64_of_small (x : Int) (h : x.natAbs < 2 ^ 53) : roundF64 x = x := by
  have e53 : (2 : Nat) ^ 53 = 9007199254740992 := by norm_num
  rw [e53] at h
  unfold roundF64 roundF64Nat
  by_cases h0 : 0 ≤ x
  · rw [if_pos h0, if_pos (by rw [e53]; omega)]
    exact Int.toNat_of_nonneg h0
  · rw [if_neg h0, if_pos (by rw [e53]; omega)]
    have h3 : ((-x).toNat : Int) = -x := Int.toNat_of_nonneg (by omega)
    omega

set_option maxRecDepth 8000 in
/-- C2 counterexample: the delay-set score is not always now plus the exact
2 to the (k + 1) times 100 ms. At retry count 36 the int64 product wraps to a
negative duration, so the stored score at call time 0 is a large negative
number instead of 2 to the 37 times 100 ms; and at a present-day nanosecond
timestamp the float64 conversion rounds the sum (nanosecond timestamps exceed
the 53-bit significand), so the stored score differs from the exact sum. -/
theorem retry_score_not_exact :
    ((retry Task.id { id := "t", taskType := "y", payload := "",
                      createdAt := 0, retryCount := 36, priority := 1 }
        "x" 0 emptyState).delayedQueue = [(-4702848726509551616, "t")] ∧
      (-4702848726509551616 : Int) - 0 ≠ 2 ^ (36 + 1) * 100000000) ∧
    ((retry Task.id { id := "t", taskType := "y", payload := "",
                      createdAt := 0, retryCount := 0, priority := 1 }
        "x" 1700000000000000001
        emptyState).delayedQueue.map Prod.fst ≠ [1700000000200000001]) := by
  exact ⟨⟨by decide, by decide⟩, by decide⟩

/-- C2 amended: for retry counts k with 0 ≤ k ≤ 35 the int64 backoff is exact,
and Retry increments the retry count to exactly k + 1, removes the first
occurrence of the identity token from the in-flight list, and adds the freshly
re-encoded task to the delay set with score float64(now + 2^(k+1) * 100ms):
the exact nanosecond sum rounded to the nearest double, which equals the sum
itself (so the score minus the call time is exactly 2^(k+1) * 100ms) whenever
the sum is below 2^53 in magnitude. -/
theorem retry_semantics_bounded (encode : Task → String) (t : Task)
    (rawTask : String) (now : Int) (s : BrokerState)
    (h0 : 0 ≤ t.retryCount) (h35 : t.retryCount ≤ 35)
    (hlo : -(2 ^ 63) ≤ now + 2 ^ (t.retryCount + 1).toNat * 100000000)
    (hhi : now + 2 ^ (t.retryCount + 1).toNat * 100000000 < 2 ^ 63) :
    (retryTask t).retryCount = t.retryCount + 1 ∧
    backoffNs (t.retryCount + 1) = 2 ^ (t.retryCount + 1).toNat * 100000000 ∧
    (retry encode t rawTask now s).delayedQueue =
      zadd (roundF64 (now + 2 ^ (t.retryCount + 1).toNat * 100000000))
        (encode (retryTask t)) s.delayedQueue ∧
    (roundF64 (now + 2 ^ (t.retryCount + 1).toNat * 100000000),
        encode (retryTask t)) ∈ (retry encode t rawTask now s).delayedQueue ∧
    (retry encode t rawTask now s).processingQueue =
      s.processingQueue.erase rawTask ∧
    ((now + 2 ^ (t.retryCount + 1).toNat * 100000000).natAbs < 2 ^ 53 →
      roundF64 (now + 2 ^ (t.retryCount + 1).toNat * 100000000) - now =
        2 ^ (t.retryCount + 1).toNat * 100000000) := by
  have hinc : (retryTask t).retryCount = t.retryCount + 1 := by
    unfold retryTask
    exact wrap64_of_range _ (by norm_num; omega) (by norm_num; omega)
  have hback : backoffNs (t.retryCount + 1) =
      2 ^ (t.retryCount + 1).toNat * 100000000 :=
    backoffNs_exact _ (by omega) (by omega)
  have hscore : wrap64 (now + backoffNs (retryTask t).retryCount) =
      now + 2 ^ (t.retryCount + 1).toNat * 100000000 := by
    rw [hinc, hback]
    exact wrap64_of_range _ hlo hhi
  have h3 : (retry encode t rawTask now s).delayedQueue =
      zadd (roundF64 (now + 2 ^ (t.retryCount + 1).toNat * 100000000))
        (encode (retryTask t)) s.delayedQueue := by
    show zadd (roundF64 (wrap64 (now + backoffNs (retryTask t).retryCount)))
      (encode (retryTask t)) s.delayedQueue = _
    rw [hscore]
  refine ⟨hinc, hback, h3, ?_, rfl, ?_⟩
  · rw [h3]
    exact mem_zadd _ _ _
  · intro hsm
    rw [roundF64_of_small _ hsm]
    ring

set_option maxRecDepth 8000 in
/-- Witness for C2 amended at retry count 0 and call time 0: the stored score
is exactly 200 ms in nanoseconds. -/
theorem retry_semantics_bounded_witness :
    (retry Task.id { id := "t", taskType := "y", payload := "",
                     createdAt := 0, retryCount := 0, priority := 1 }
        "x" 0 emptyState).delayedQueue = [(200000000, "t")] := by
  have h := retry_semantics_bounded Task.id
    { id := "t", taskType := "y", payload := "", createdAt := 0,
      retryCount := 0, priority := 1 } "x" 0 emptyState
    (by decide) (by decide) (by decide) (by decide)
  exact h.2.2.1.trans (by decide)

/-- Enqueue adds exactly one occurrence of the encoded task to the tracked
lists and touches no other encoded form. -/
theorem occCount_enqueue (encode : Task → String) (d : String) (t : Task)
    (s : BrokerState) :
    occCount d (enqueue encode t s) =
      occCount d s + (if encode t = d then 1 else 0) := by
  by_cases h : encode t = d <;>
    · unfold enqueue occCount
      split_ifs <;>
        simp [List.count_append, List.count_cons, List.count_nil, h] <;> omega

/-- One operation changes the total occurrence count of an encoded form only
when it is the enqueue of that form; a dequeue only moves an entry between
tracked lists. -/
theorem occCount_applyOp (encode : Task → String) (d : String) (s : BrokerState)
    (op : QueueOp) :
    occCount d (applyOp encode s op) =
      occCount d s + (match op with
        | .enqueueOp t => if encode t = d then 1 else 0
        | .dequeueOp => 0) := by
  cases op with
  | enqueueOp t => simpa using occCount_enqueue encode d t s
  | dequeueOp =>
    unfold applyOp
    rcases hh : s.queueHigh with _ | ⟨r, rest⟩ <;>
      rcases hd : s.queueDefault with _ | ⟨r2, rest2⟩ <;>
        rcases hl : s.queueLow with _ | ⟨r3, rest3⟩ <;>
          simp [dequeue, hh, hd, hl, occCount, List.count_append,
            List.count_cons, List.count_nil] <;> omega

/-- Running a sequence of operations, the total occurrence count of an encoded
form grows by exactly the number of enqueues of that form. -/
theorem occCount_runOps (encode : Task → String) (d : String)
    (ops : List QueueOp) (s : BrokerState) :
    occCount d (runOps encode s ops) =
      occCount d s + (enqueuedData encode ops).count d := by
  induction ops generalizing s with
  | nil => simp [runOps, enqueuedData]
  | cons op rest ih =>
    have e1 : runOps encode s (op :: rest) =
        runOps encode (applyOp encode s op) rest := rfl
    rw [e1, ih (applyOp encode s op), occCount_applyOp]
    cases op with
    | enqueueOp t =>
      by_cases h : encode t = d
      · simp [enqueuedData, List.filterMap_cons, List.count_cons, h]
        omega
      · simp [enqueuedData, List.filterMap_cons, List.count_cons, h]
    | dequeueOp =>
      simp [enqueuedData, List.filterMap_cons]

/-- C3: exactly-once queue membership. Starting from the empty broker state,
after any sequence of Enqueue and Dequeue operations whose enqueued encoded
tasks are pairwise distinct, every enqueued task occurs exactly once across the
union of the three ready queues, the in-flight list and the completed list, and
lies in exactly one of those five lists, never in two simultaneously. -/
theorem enqueue_dequeue_exactly_once (encode : Task → String)
    (ops : List QueueOp) (hnodup : (enqueuedData encode ops).Nodup)
    (d : String) (hd : d ∈ enqueuedData encode ops) :
    occCount d (runOps encode emptyState ops) = 1 ∧
    listsContaining d (runOps encode emptyState ops) = 1 := by
  have h1 : occCount d (runOps encode emptyState ops) =
      (enqueuedData encode ops).count d := by
    rw [occCount_runOps]
    simp [occCount, emptyState]
  have hc : (enqueuedData encode ops).count d = 1 :=
    List.count_eq_one_of_mem hnodup hd
  refine ⟨h1.trans hc, ?_⟩
  have hocc := h1.trans hc
  unfold occCount at hocc
  unfold listsContaining
  simp only [← List.count_pos_iff]
  split_ifs <;> omega

/-- Witness for C3: two distinct enqueues interleaved with dequeues; the first
encoded task sits in exactly one place. -/
theorem enqueue_dequeue_exactly_once_witness :
    occCount "a" (runOps Task.id emptyState
      [QueueOp.enqueueOp { id := "a", taskType := "x", payload := "",
                           createdAt := 0, retryCount := 0, priority := 2 },
       QueueOp.dequeueOp,
       QueueOp.enqueueOp { id := "b", taskType := "x", payload := "",
                           createdAt := 0, retryCount := 0, priority := 1 }]) = 1 := by
  have h := enqueue_dequeue_exactly_once Task.id
    [QueueOp.enqueueOp { id := "a", taskType := "x", payload := "",
                         createdAt := 0, retryCount := 0, priority := 2 },
     QueueOp.dequeueOp,
     QueueOp.enqueueOp { id := "b", taskType := "x", payload := "",
                         createdAt := 0, retryCount := 0, priority := 1 }]
    (by simp [enqueuedData]) "a" (by simp [enqueuedData])
  exact h.1

/-- A tick whose delay set only holds entries due strictly later promotes
nothing and leaves the state unchanged, returning 0. -/
theorem schedulerTick_of_none_due (now : Int) (X : BrokerState)
    (h : ∀ e ∈ X.delayedQueue, now < e.1) :
    schedulerTick now X = (X, 0) := by
  have hnil : X.delayedQueue.filter (fun e => decide (e.1 ≤ now)) = [] := by
    rw [List.filter_eq_nil_iff]
    intro a ha
    have := h a ha
    simp
    omega
  have hsame : X.delayedQueue.filter (fun e => decide (now < e.1)) =
      X.delayedQueue := by
    rw [List.filter_eq_self]
    intro a ha
    have := h a ha
    simpa
  simp [schedulerTick, hnil, hsame]

/-- C4: scheduler promotion. One tick removes exactly the delay-set members
whose score is at most now (those with larger score remain, in order), appends
the removed members in ascending-score order to the right of queue:default
regardless of any priority recorded inside the member, returns the number of
promoted entries, and a second tick at the same instant promotes nothing, so
each member is promoted at most once even when concurrent replicas run the
atomic script back to back. -/
theorem scheduler_tick_promotion (now : Int) (s : BrokerState)
    (hsorted : s.delayedQueue.Sorted (fun a b => a.1 ≤ b.1)) :
    ((schedulerTick now s).1.delayedQueue =
      s.delayedQueue.filter (fun e => decide (now < e.1))) ∧
    ((schedulerTick now s).1.queueDefault =
      s.queueDefault ++
        (s.delayedQueue.filter (fun e => decide (e.1 ≤ now))).map Prod.snd) ∧
    ((schedulerTick now s).2 =
      (s.delayedQueue.filter (fun e => decide (e.1 ≤ now))).length) ∧
    (((s.delayedQueue.filter (fun e => decide (e.1 ≤ now))).map
        Prod.fst).Sorted (· ≤ ·)) ∧
    (∀ e ∈ s.delayedQueue, e.1 ≤ now →
      e ∉ (schedulerTick now s).1.delayedQueue) ∧
    (schedulerTick now (schedulerTick now s).1 = ((schedulerTick now s).1, 0)) := by
  refine ⟨rfl, rfl, rfl, ?_, ?_, ?_⟩
  · have h2 := hsorted.filter (fun e => decide (e.1 ≤ now))
    simpa [List.Sorted, List.pairwise_map] using h2
  · intro e he hle
    simp only [schedulerTick, List.mem_filter, decide_eq_true_eq, not_and]
    intro _
    omega
  · apply schedulerTick_of_none_due
    intro e he
    simp only [schedulerTick, List.mem_filter, decide_eq_true_eq] at he
    exact he.2

/-- Witness for C4 at a concrete delay set holding one due and one future
entry: the due member is promoted to queue:default, the future member stays. -/
theorem scheduler_tick_promotion_witness :
    (schedulerTick 0 { emptyState with
                       delayedQueue := [(-5, "a"), (10, "b")] }).1.delayedQueue =
      [(10, "b")] ∧
    (schedulerTick 0 { emptyState with
                       delayedQueue := [(-5, "a"), (10, "b")] }).1.queueDefault =
      ["a"] ∧
    (schedulerTick 0 { emptyState with
                       delayedQueue := [(-5, "a"), (10, "b")] }).2 = 1 := by
  have h := scheduler_tick_promotion 0
    { emptyState with delayedQueue := [(-5, "a"), (10, "b")] } (by decide)
  exact ⟨h.1.trans (by decide), h.2.1.trans (by decide), h.2.2.1.trans (by decide)⟩

/-- A call in the same clock second as the stored refill time does not refill;
with at least one token left it is allowed and consumes exactly one token. -/
theorem clientAllow_same_second (limit burst j t : Int) (h1 : 1 ≤ j)
    (h2 : j ≤ burst) :
    clientAllow limit burst t (some ⟨j, t⟩) = (true, ⟨j - 1, t⟩) := by
  unfold clientAllow allowScript
  simp only [sub_self, max_self, zero_mul, add_zero]
  rw [min_eq_right h2, if_pos h1]

/-- A call in the same clock second with an empty bucket is denied and leaves
the bucket empty. -/
theorem clientAllow_same_second_empty (limit burst t : Int) (hb : 0 ≤ burst) :
    clientAllow limit burst t (some ⟨0, t⟩) = (false, ⟨0, t⟩) := by
  unfold clientAllow allowScript
  simp only [sub_self, max_self, zero_mul, add_zero]
  rw [min_eq_right hb, if_neg (by omega)]

/-- One second after an empty bucket was stored, the refill grants min burst
rate tokens, so with positive rate and burst the next call is allowed. -/
theorem clientAllow_next_second (limit burst t : Int) (hr : 1 ≤ limit)
    (hb : 1 ≤ burst) :
    (clientAllow limit burst (t + 1) (some ⟨0, t⟩)).1 = true := by
  unfold clientAllow allowScript
  simp only [add_sub_cancel_left]
  have hd : (0 : Int) ⊔ 1 = 1 := by norm_num
  rw [hd]
  simp only [one_mul, zero_add]
  rw [if_pos (le_min hb hr)]

/-- Splitting a run of Allow calls at any point composes the outcomes and
threads the persisted bucket state. -/
theorem allowRun_append (limit burst : Int) (l1 l2 : List Int)
    (st : Option BucketState) :
    allowRun limit burst (l1 ++ l2) st =
      ((allowRun limit burst l1 st).1 ++
        (allowRun limit burst l2 (allowRun limit burst l1 st).2).1,
       (allowRun limit burst l2 (allowRun limit burst l1 st).2).2) := by
  induction l1 generalizing st with
  | nil => simp [allowRun]
  | cons t rest ih => simp [allowRun, ih]

/-- While at least k tokens remain, k calls in the same clock second are all
allowed and consume one token each. -/
theorem allowRun_replicate (limit burst t : Int) (k : Nat) (j : Int)
    (h1 : (k : Int) ≤ j) (h2 : j ≤ burst) :
    allowRun limit burst (List.replicate k t) (some ⟨j, t⟩) =
      (List.replicate k true, some ⟨j - k, t⟩) := by
  induction k generalizing j with
  | zero => simp [allowRun]
  | succ k ih =>
    have hj1 : (1 : Int) ≤ j := by
      push_cast at h1
      omega
    have hstep := clientAllow_same_second limit burst j t hj1 h2
    have hrec := ih (j - 1) (by push_cast at h1 ⊢; omega) (by omega)
    rw [List.replicate_succ]
    simp only [allowRun, hstep, hrec]
    refine Prod.ext ?_ ?_
    · simp [List.replicate_succ]
    · simp only [Option.some.injEq, BucketState.mk.injEq]
      push_cast
      constructor
      · omega
      · trivial

/-- A burst of b calls at one clock second from a never observed key are all
allowed and drain the bucket to zero. -/
theorem allowRun_burst (limit : Int) (b : Nat) (t : Int) (hb : 1 ≤ b) :
    allowRun limit (b : Int) (List.replicate b t) none =
      (List.replicate b true, some ⟨0, t⟩) := by
  obtain ⟨k, rfl⟩ : ∃ k, b = k + 1 := ⟨b - 1, by omega⟩
  have hb1 : (1 : Int) ≤ ((k + 1 : Nat) : Int) := by push_cast; omega
  have hfirst : clientAllow limit ((k + 1 : Nat) : Int) t none =
      (true, ⟨((k + 1 : Nat) : Int) - 1, t⟩) := by
    unfold clientAllow allowScript
    simp only [sub_self, max_self, zero_mul, add_zero]
    rw [min_self, if_pos hb1]
  have hrec := allowRun_replicate limit ((k + 1 : Nat) : Int) t k
    (((k + 1 : Nat) : Int) - 1) (by push_cast; omega) (by omega)
  rw [List.replicate_succ]
  simp only [allowRun, hfirst, hrec]
  refine Prod.ext ?_ ?_
  · simp [List.replicate_succ]
  · simp only [Option.some.injEq, BucketState.mk.injEq]
    push_cast
    constructor
    · omega
    · trivial

/-- C5: token-bucket rate-limit shape. For rate at least 1 and burst b at
least 1, starting from a key that was never observed, b consecutive Allow calls
in one clock second all return the allowed boolean, the next call in the same
second returns the denied boolean (a normal return, not an error), and one
further call in the following clock second (the resolution of the Unix-seconds
clock for a wait of 1 over rate) is allowed again. -/
theorem rate_limit_shape (limit : Int) (b : Nat) (t : Int)
    (hr : 1 ≤ limit) (hb : 1 ≤ b) :
    (allowRun limit (b : Int) (List.replicate b t ++ [t]) none).1 =
      List.replicate b true ++ [false] ∧
    (clientAllow limit (b : Int) (t + 1)
      (allowRun limit (b : Int) (List.replicate b t ++ [t]) none).2).1 = true := by
  have hb1 : (1 : Int) ≤ (b : Int) := by exact_mod_cast hb
  have hburst := allowRun_burst limit b t hb
  have hdeny := clientAllow_same_second_empty limit (b : Int) t (by omega)
  have hfull : allowRun limit (b : Int) (List.replicate b t ++ [t]) none =
      (List.replicate b true ++ [false], some ⟨0, t⟩) := by
    rw [allowRun_append, hburst]
    simp [allowRun, hdeny]
  rw [hfull]
  exact ⟨rfl, clientAllow_next_second limit (b : Int) t hr hb1⟩

/-- Witness for C5 with rate 1 and burst 1 at clock second 0: allow, deny,
then allow again one second later. -/
theorem rate_limit_shape_witness :
    (allowRun 1 ((1 : Nat) : Int) (List.replicate 1 0 ++ [0]) none).1 =
      List.replicate 1 true ++ [false] ∧
    (clientAllow 1 ((1 : Nat) : Int) (0 + 1)
      (allowRun 1 ((1 : Nat) : Int) (List.replicate 1 0 ++ [0]) none).2).1 =
      true :=
  rate_limit_shape 1 1 0 (by norm_num) (by norm_num)

/-- C6: worker retry policy. On handler failure the worker loop calls Retry
exactly when the retry count of the dequeued task is strictly below 3 and
calls Fail otherwise; Fail appends the serialized task to the dead-letter list
and removes the identity token from the in-flight list; and the engine itself
imposes no maximum: Retry schedules a delay-set entry for every retry count. -/
theorem worker_retry_policy (encode : Task → String) (t : Task)
    (rawTask : String) (now : Int) (s : BrokerState) :
    (t.retryCount < 3 →
      workerFailureAction t = FailureAction.retryAction ∧
      handleFailure encode t rawTask now s = retry encode t rawTask now s) ∧
    (3 ≤ t.retryCount →
      workerFailureAction t = FailureAction.failAction ∧
      handleFailure encode t rawTask now s = fail encode t rawTask s ∧
      (handleFailure encode t rawTask now s).deadLetterQueue =
        s.deadLetterQueue ++ [encode t] ∧
      (handleFailure encode t rawTask now s).processingQueue =
        s.processingQueue.erase rawTask) ∧
    ((retryScore t now, encode (retryTask t)) ∈
      (retry encode t rawTask now s).delayedQueue) := by
  refine ⟨?_, ?_, ?_⟩
  · intro h
    simp [workerFailureAction, handleFailure, h]
  · intro h
    have h3 : ¬ t.retryCount < 3 := by omega
    simp [workerFailureAction, handleFailure, h3, fail]
  · show (retryScore t now, encode (retryTask t)) ∈
      zadd (retryScore t now) (encode (retryTask t)) s.delayedQueue
    exact mem_zadd _ _ _

/-- Witness for C6 at retry counts 0 and 3: the worker retries the former and
dead-letters the latter. -/
theorem worker_retry_policy_witness :
    workerFailureAction { id := "a", taskType := "x", payload := "",
                          createdAt := 0, retryCount := 0, priority := 1 } =
      FailureAction.retryAction ∧
    workerFailureAction { id := "a", taskType := "x", payload := "",
                          createdAt := 0, retryCount := 3, priority := 1 } =
      FailureAction.failAction := by
  have h1 := (worker_retry_policy Task.id
    { id := "a", taskType := "x", payload := "", createdAt := 0,
      retryCount := 0, priority := 1 } "r" 0 emptyState).1 (by norm_num)
  have h2 := (worker_retry_policy Task.id
    { id := "a", taskType := "x", payload := "", createdAt := 0,
      retryCount := 3, priority := 1 } "r" 0 emptyState).2.1 (by norm_num)
  exact ⟨h1.1, h2.1⟩

/-- The trailing trim never yields more than n entries. -/
theorem ltrimLast_length_le (n : Nat) (l : List String) :
    (ltrimLast n l).length ≤ n := by
  simp [ltrimLast]
  omega

/-- Trimming, appending and trimming again equals trimming the full history. -/
theorem ltrimLast_append (n : Nat) (x y : List String) :
    ltrimLast n (ltrimLast n x ++ y) = ltrimLast n (x ++ y) := by
  unfold ltrimLast
  simp only [List.length_append, List.length_drop]
  rw [List.drop_append_eq_append_drop, List.drop_append_eq_append_drop,
    List.drop_drop]
  congr 1 <;> (congr 1; (try simp only [List.length_drop]); omega)

/-- Folding Complete over a list of tokens keeps the completed list equal to
the trailing 100 entries of the initial list extended by all completed tokens,
provided the initial list is within the bound. -/
theorem completedQueue_foldl (rs : List String) (s : BrokerState)
    (h : s.completedQueue.length ≤ 100) :
    (rs.foldl (fun st r => complete r st) s).completedQueue =
      ltrimLast 100 (s.completedQueue ++ rs) := by
  induction rs generalizing s with
  | nil =>
    simp [ltrimLast, Nat.sub_eq_zero_of_le h]
  | cons r rest ih =>
    have hstep : (complete r s).completedQueue.length ≤ 100 :=
      ltrimLast_length_le 100 _
    have e1 : (r :: rest).foldl (fun st rr => complete rr st) s =
        rest.foldl (fun st rr => complete rr st) (complete r s) := rfl
    rw [e1, ih (complete r s) hstep]
    show ltrimLast 100 (ltrimLast 100 (s.completedQueue ++ [r]) ++ rest) = _
    rw [ltrimLast_append]
    congr 1
    simp

/-- C7: completed-list bound. From any state whose completed list has at most
100 entries, any sequence of Complete calls leaves at most 100 entries and
those are the trailing (most recently completed) tokens of the whole history;
each Complete removes the first occurrence of the token from the in-flight
list and appends it to the completed list before trimming. -/
theorem complete_bound (s : BrokerState) (rs : List String)
    (h : s.completedQueue.length ≤ 100) :
    (rs.foldl (fun st r => complete r st) s).completedQueue.length ≤ 100 ∧
    (rs.foldl (fun st r => complete r st) s).completedQueue =
      ltrimLast 100 (s.completedQueue ++ rs) ∧
    (∀ r st, (complete r st).processingQueue = st.processingQueue.erase r ∧
      (complete r st).completedQueue = ltrimLast 100 (st.completedQueue ++ [r])) := by
  refine ⟨?_, completedQueue_foldl rs s h, fun r st => ⟨rfl, rfl⟩⟩
  rw [completedQueue_foldl rs s h]
  exact ltrimLast_length_le 100 _

/-- Witness for C7: completing two tokens from the empty state leaves exactly
those two tokens in the completed list. -/
theorem complete_bound_witness :
    (["a", "b"].foldl (fun st r => complete r st) emptyState).completedQueue =
      ["a", "b"] := by
  have h := (complete_bound emptyState ["a", "b"] (by simp [emptyState])).2.1
  rw [h]
  rfl

set_option maxRecDepth 8000 in
/-- C8 counterexample: the pipelines do not detect an absent identity token.
With an empty in-flight list, Complete still appends the absent token to the
completed list and Retry still adds the re-encoded task to the delay set; the
cycle is not aborted. -/
theorem absent_token_not_aborted :
    "x" ∉ emptyState.processingQueue ∧
    (complete "x" emptyState).completedQueue = ["x"] ∧
    (retry Task.id { id := "t", taskType := "y", payload := "", createdAt := 0,
                     retryCount := 0, priority := 1 } "x" 0
      emptyState).delayedQueue = [(200000000, "t")] := by
  refine ⟨?_, rfl, ?_⟩
  · simp [emptyState]
  · decide

/-- C8 amended: when the identity token is absent from the in-flight list the
operations do not abort and do not repair anything. The removal is a no-op, so
the in-flight list is unchanged, while the remaining pipeline commands still
run: Ack changes nothing, Complete appends the token to the completed list,
Retry adds the re-encoded task to the delay set, and Fail appends the
serialized task to the dead-letter list. -/
theorem absent_token_operations (encode : Task → String) (t : Task)
    (rawTask : String) (now : Int) (s : BrokerState)
    (h : rawTask ∉ s.processingQueue) :
    ack rawTask s = s ∧
    (complete rawTask s).processingQueue = s.processingQueue ∧
    (complete rawTask s).completedQueue =
      ltrimLast 100 (s.completedQueue ++ [rawTask]) ∧
    (retry encode t rawTask now s).processingQueue = s.processingQueue ∧
    (retryScore t now, encode (retryTask t)) ∈
      (retry encode t rawTask now s).delayedQueue ∧
    (fail encode t rawTask s).processingQueue = s.processingQueue ∧
    (fail encode t rawTask s).deadLetterQueue =
      s.deadLetterQueue ++ [encode t] := by
  have he : s.processingQueue.erase rawTask = s.processingQueue :=
    List.erase_of_not_mem h
  refine ⟨by simp [ack, he], by simp [complete, he], rfl,
    by simp [retry, he], ?_, by simp [fail, he], rfl⟩
  show (retryScore t now, encode (retryTask t)) ∈
    zadd (retryScore t now) (encode (retryTask t)) s.delayedQueue
  exact mem_zadd _ _ _

/-- Witness for C8 amended at a concrete state whose in-flight list does not
hold the token: Complete appends the token behind the existing history. -/
theorem absent_token_operations_witness :
    (complete "x" { emptyState with completedQueue := ["c"] }).completedQueue =
      ["c", "x"] := by
  have h := absent_token_operations Task.id
    { id := "t", taskType := "y", payload := "", createdAt := 0,
      retryCount := 0, priority := 1 } "x" 0
    { emptyState with completedQueue := ["c"] } (by simp [emptyState])
  exact h.2.2.1.trans rfl

/-- C9: API-key authentication. With a non-empty configured key, a non-OPTIONS
request whose X-API-Key header differs from the key is answered 401 no matter
which handler is wrapped (so the handler is not invoked); an OPTIONS preflight
is answered 200 before the auth check for every key; with an empty configured
key the enqueue route never answers 401, and an empty (undecodable) POST body
is answered 400. -/
theorem auth_middleware_behavior (key : String) :
    (∀ (next : HandlerFunc) (r : HttpRequest) (s : BrokerState),
      key ≠ "" → r.method ≠ "OPTIONS" → r.apiKey ≠ key →
      enableCORS (authMiddleware next key) r s = (401, s)) ∧
    (∀ (next : HandlerFunc) (r : HttpRequest) (s : BrokerState),
      r.method = "OPTIONS" →
      enableCORS (authMiddleware next key) r s = (200, s)) ∧
    (∀ (encode : Task → String) (freshId : String) (nowT : Int)
      (r : HttpRequest) (s : BrokerState),
      (enqueueRoute encode freshId nowT "" r s).1 ≠ 401) ∧
    (∀ (encode : Task → String) (freshId : String) (nowT : Int)
      (r : HttpRequest) (s : BrokerState),
      r.method = "POST" → r.body = none →
      enqueueRoute encode freshId nowT "" r s = (400, s)) := by
  refine ⟨?_, ?_, ?_, ?_⟩
  · intro next r s hk hm ha
    simp [enableCORS, authMiddleware, hm, hk, ha]
  · intro next r s hm
    simp [enableCORS, hm]
  · intro encode freshId nowT r s
    by_cases hm : r.method = "OPTIONS"
    · simp [enqueueRoute, enableCORS, hm]
    · by_cases hp : r.method = "POST"
      · rcases hb : r.body with _ | b <;>
          simp [enqueueRoute, enableCORS, authMiddleware, enqueueHandler,
            hm, hp, hb]
      · simp [enqueueRoute, enableCORS, authMiddleware, enqueueHandler, hm, hp]
  · intro encode freshId nowT r s hm hb
    have hmo : r.method ≠ "OPTIONS" := by
      rw [hm]
      decide
    simp [enqueueRoute, enableCORS, authMiddleware, enqueueHandler,
      hm, hmo, hb]

/-- Witness for C9: a concrete POST without the key against configured key k is
rejected 401; the same request with authentication disabled is answered 400 for
its empty body. -/
theorem auth_middleware_behavior_witness :
    enableCORS (authMiddleware (enqueueHandler Task.id "id" 0) "k")
      { method := "POST", apiKey := "", body := none } emptyState =
      (401, emptyState) ∧
    enqueueRoute Task.id "id" 0 ""
      { method := "POST", apiKey := "", body := none } emptyState =
      (400, emptyState) := by
  refine ⟨(auth_middleware_behavior "k").1 (enqueueHandler Task.id "id" 0)
    { method := "POST", apiKey := "", body := none } emptyState
    (by decide) (by decide) (by decide), ?_⟩
  exact (auth_middleware_behavior "k").2.2.2 Task.id "id" 0
    { method := "POST", apiKey := "", body := none } emptyState rfl rfl

/-- C10: implicit default priority at the HTTP boundary. A valid enqueue body
that omits the priority field produces a task with priority 0, which is Low,
and the request appends the encoded task to queue:low, not to the default
queue; and Enqueue routes to queue:default exactly those tasks whose priority
is neither 2 nor 0. -/
theorem default_priority_routing (encode : Task → String) (freshId : String)
    (nowT : Int) (s : BrokerState) :
    (∀ b : EnqueueBody, b.priorityField = none →
      (mkEnqueueTask freshId nowT b).priority = PriorityLow) ∧
    (∀ (r : HttpRequest) (b : EnqueueBody),
      r.method = "POST" → r.body = some b → b.priorityField = none →
      enqueueRoute encode freshId nowT "" r s =
        (200, { s with
                queueLow := s.queueLow ++
                  [encode (mkEnqueueTask freshId nowT b)] })) ∧
    (∀ t : Task, enqueueQueueName t.priority = "queue:default" ↔
      (t.priority ≠ PriorityHigh ∧ t.priority ≠ PriorityLow)) ∧
    (∀ t : Task,
      ((enqueue encode t s).queueDefault = s.queueDefault ++ [encode t] ↔
        (t.priority ≠ PriorityHigh ∧ t.priority ≠ PriorityLow))) := by
  refine ⟨?_, ?_, ?_, ?_⟩
  · intro b hb
    simp [mkEnqueueTask, hb, PriorityLow]
  · intro r b hm hb hp
    have hmo : r.method ≠ "OPTIONS" := by
      rw [hm]
      decide
    have hpr : (mkEnqueueTask freshId nowT b).priority = 0 := by
      simp [mkEnqueueTask, hp]
    simp [enqueueRoute, enableCORS, authMiddleware, enqueueHandler, hm, hmo,
      hb, enqueue, hpr, PriorityHigh, PriorityLow]
  · intro t
    unfold enqueueQueueName
    split_ifs with h1 h2 <;> simp_all [PriorityHigh, PriorityLow]
  · intro t
    unfold enqueue
    split_ifs with h1 h2 <;> simp_all [PriorityHigh, PriorityLow]

/-- Witness for C10: a POST body without a priority field lands on queue:low. -/
theorem default_priority_routing_witness :
    enqueueRoute Task.id "id" 0 ""
      { method := "POST", apiKey := "",
        body := some { bodyType := "x", payload := "p", priorityField := none } }
      emptyState =
      (200, { emptyState with queueLow := ["id"] }) := by
  have h := (default_priority_routing Task.id "id" 0 emptyState).2.1
    { method := "POST", apiKey := "",
      body := some { bodyType := "x", payload := "p", priorityField := none } }
    { bodyType := "x", payload := "p", priorityField := none } rfl rfl rfl
  exact h.trans rfl

end DistributedQ
